import Mathlib

set_option maxRecDepth 100000
set_option maxHeartbeats 2000000

/-!
Verification of the task-runner core (candidate model, process executor,
streaming protocol reader, iteration state machine, backoff policy).

The Go sources are shallowly embedded: strings are lists of characters,
external processes are oracles supplied through environment records, and
each Go function is translated into a computable Lean function keeping the
source structure and names where possible.
-/

namespace TaskRunner

/-- Strings are modelled as lists of characters (Go byte strings are
ASCII/UTF-8 text; characters are compared exactly as Go compares bytes of
their encodings for the inputs that occur here). -/
abbrev Str := List Char

/-- The double-quote character. -/
def chQuote : Char := Char.ofNat 34

/-- The backslash character. -/
def chBackslash : Char := Char.ofNat 92

/-- The opening-brace character. -/
def chLBrace : Char := Char.ofNat 123

/-- The closing-brace character. -/
def chRBrace : Char := Char.ofNat 125

/-- The opening-bracket character. -/
def chLBrack : Char := Char.ofNat 91

/-- The closing-bracket character. -/
def chRBrack : Char := Char.ofNat 93

/-- The comma character. -/
def chComma : Char := Char.ofNat 44

/-- The colon character. -/
def chColon : Char := Char.ofNat 58

/-- The dollar character. -/
def chDollar : Char := Char.ofNat 36

/-- The newline character. -/
def chNewline : Char := Char.ofNat 10

/-- Embedding of strings.Contains: true when the pattern occurs as a
contiguous substring. -/
def strContains : Str → Str → Bool
  | s, pat =>
    if pat.isPrefixOf s then true
    else
      match s with
      | [] => false
      | _ :: rest => strContains rest pat

/-! ## Backoff policy (runner.go, calculateBackoff)

Durations are in nanoseconds, as Go time.Duration counts them. -/

/-- baseBackoff = 5 * time.Minute -/
def baseBackoff : Nat := 5 * 60 * 1000000000

/-- maxBackoff = 1 * time.Hour -/
def maxBackoff : Nat := 60 * 60 * 1000000000

/-- rateLimitBackoff = 1 * time.Hour -/
def rateLimitBackoff : Nat := 60 * 60 * 1000000000

/-- The loop body of calculateBackoff: repeat level times, doubling the
accumulator and returning maxBackoff as soon as it reaches it. -/
def backoffLoop : Nat → Nat → Nat
  | 0, backoff => backoff
  | n + 1, backoff =>
    let b := backoff * 2
    if maxBackoff ≤ b then maxBackoff else backoffLoop n b

/-- calculateBackoff returns the backoff duration for the given level. -/
def calculateBackoff (level : Nat) : Nat :=
  backoffLoop level baseBackoff

theorem backoffLoop_eq_min (n : Nat) :
    ∀ b : Nat, b ≤ maxBackoff → backoffLoop n b = min (b * 2 ^ n) maxBackoff := by
  induction n with
  | zero =>
    intro b hb
    simp [backoffLoop, Nat.min_eq_left hb]
  | succ n ih =>
    intro b hb
    by_cases h : maxBackoff ≤ b * 2
    · have h2 : maxBackoff ≤ b * 2 ^ (n + 1) := by
        calc maxBackoff ≤ b * 2 := h
          _ ≤ b * 2 ^ (n + 1) := by
            apply Nat.mul_le_mul_left
            have : (2 : Nat) ^ 1 ≤ 2 ^ (n + 1) :=
              Nat.pow_le_pow_right (by norm_num) (by omega)
            simpa using this
      simp [backoffLoop, h, Nat.min_eq_right h2]
    · push_neg at h
      have hle : b * 2 ≤ maxBackoff := Nat.le_of_lt h
      have := ih (b * 2) hle
      simp only [backoffLoop, if_neg (by omega : ¬ maxBackoff ≤ b * 2)]
      rw [this]
      congr 1
      ring

/-! ## Textual JSON machinery (candidate.go)

The Go code keeps candidate data as raw JSON bytes (json.RawMessage) and
manipulates it textually: json.Compact removes insignificant whitespace
without reordering anything, json.Unmarshal into a slice of RawMessage
splits a top-level array into the raw texts of its elements, and
json.Unmarshal into a string unquotes a JSON string literal.  These are
embedded as character-list transformers.  Syntactic validation is
structural (balanced brackets, closed strings); the theorems only ever
apply the parsers to well-formed inputs. -/

/-- JSON insignificant whitespace (space, tab, newline, carriage return). -/
def isJsonWs (c : Char) : Bool :=
  c = Char.ofNat 32 || c = Char.ofNat 9 || c = Char.ofNat 10 || c = Char.ofNat 13

/-- Drop leading JSON whitespace. -/
def skipWs : Str → Str
  | [] => []
  | c :: rest => if isJsonWs c then skipWs rest else c :: rest

/-- Consume the body of a JSON string literal after its opening quote.
Returns the rest of the input after the closing quote.  A backslash
escapes the following character. -/
def scanStringBody : Str → Option Str
  | [] => none
  | c :: rest =>
    if c = chQuote then some rest
    else if c = chBackslash then
      match rest with
      | [] => none
      | _ :: rest2 => scanStringBody rest2
    else scanStringBody rest

/-- Characters that terminate an unquoted JSON primitive (number, true,
false, null) inside a composite value. -/
def isPrimEnd (c : Char) : Bool :=
  c = chComma || c = chRBrack || c = chRBrace || isJsonWs c

/-- Consume an unquoted primitive: drop characters until a delimiter. -/
def scanPrim : Str → Str
  | [] => []
  | c :: rest => if isPrimEnd c then c :: rest else scanPrim rest

/-- Consume the remainder of a composite value that is currently `depth`
brackets/braces deep, skipping string literals.  Returns the input after
the bracket that closes depth 1.  Fuel bounds recursion. -/
def scanNested : Nat → Str → Nat → Option Str
  | 0, _, _ => none
  | _ + 1, [], _ => none
  | fuel + 1, c :: rest, depth =>
    if c = chQuote then
      match scanStringBody rest with
      | none => none
      | some r => scanNested fuel r depth
    else if c = chLBrack || c = chLBrace then
      scanNested fuel rest (depth + 1)
    else if c = chRBrack || c = chRBrace then
      match depth with
      | 0 => none
      | 1 => some rest
      | d + 2 => scanNested fuel rest (d + 1)
    else scanNested fuel rest depth

/-- Consume one JSON value starting at the head of the input (no leading
whitespace).  Returns the rest of the input after the value. -/
def scanValue (fuel : Nat) (s : Str) : Option Str :=
  match s with
  | [] => none
  | c :: rest =>
    if c = chQuote then scanStringBody rest
    else if c = chLBrack || c = chLBrace then scanNested fuel rest 1
    else
      match scanPrim (c :: rest) with
      | r => if r.length = (c :: rest).length then none else some r

/-- The raw text consumed between the original input and the rest. -/
def consumedText (s rest : Str) : Str :=
  s.take (s.length - rest.length)

/-- Split the elements of a top-level JSON array into their raw texts,
mirroring json.Unmarshal into a slice of json.RawMessage: each element
keeps its verbatim bytes (internal whitespace included), surrounding
whitespace and separators are consumed. -/
def splitElems (fuel : Nat) (s : Str) (acc : List Str) : Option (List Str) :=
  match fuel with
  | 0 => none
  | fuel + 1 =>
    let s1 := skipWs s
    match scanValue (s1.length + 1) s1 with
    | none => none
    | some rest =>
      let elem := consumedText s1 rest
      let s2 := skipWs rest
      match s2 with
      | [] => none
      | c :: s3 =>
        if c = chRBrack then some (acc ++ [elem])
        else if c = chComma then splitElems fuel s3 (acc ++ [elem])
        else none

/-- Parse a top-level JSON array into the raw texts of its elements. -/
def splitTopArray (s : Str) : Option (List Str) :=
  match skipWs s with
  | [] => none
  | c :: rest =>
    if c = chLBrack then
      match skipWs rest with
      | d :: _ => if d = chRBrack then some [] else splitElems (s.length + 1) rest []
      | [] => none
    else none

/-- json.Compact: remove whitespace outside string literals, copying
string literals (with their escapes) verbatim. -/
def compactText : Str → Str
  | [] => []
  | c :: rest =>
    if isJsonWs c then compactText rest
    else if c = chQuote then
      c :: compactCopyString rest
    else c :: compactText rest
where
  /-- Copy a string literal body verbatim up to and including its closing
  quote, then resume compacting. -/
  compactCopyString : Str → Str
  | [] => []
  | c :: rest =>
    if c = chQuote then c :: compactText rest
    else if c = chBackslash then
      match rest with
      | [] => [c]
      | d :: rest2 => c :: d :: compactCopyString rest2
    else c :: compactCopyString rest

/-- Decode one JSON string escape sequence (the character after the
backslash plus, for u-escapes, four hex digits).  Returns the decoded
character and the rest. -/
def decodeEscape : Str → Option (Char × Str)
  | [] => none
  | c :: rest =>
    if c = Char.ofNat 110 then some (Char.ofNat 10, rest)       -- n
    else if c = Char.ofNat 116 then some (Char.ofNat 9, rest)   -- t
    else if c = Char.ofNat 114 then some (Char.ofNat 13, rest)  -- r
    else if c = Char.ofNat 98 then some (Char.ofNat 8, rest)    -- b
    else if c = Char.ofNat 102 then some (Char.ofNat 12, rest)  -- f
    else if c = chQuote || c = chBackslash || c = Char.ofNat 47 then some (c, rest)
    else if c = Char.ofNat 117 then
      match rest with
      | h1 :: h2 :: h3 :: h4 :: rest2 =>
        let hex := fun (d : Char) =>
          if d.toNat ≥ 48 && d.toNat ≤ 57 then some (d.toNat - 48)
          else if d.toNat ≥ 97 && d.toNat ≤ 102 then some (d.toNat - 87)
          else if d.toNat ≥ 65 && d.toNat ≤ 70 then some (d.toNat - 55)
          else none
        match hex h1, hex h2, hex h3, hex h4 with
        | some a, some b, some cc, some d =>
          some (Char.ofNat (a * 4096 + b * 256 + cc * 16 + d), rest2)
        | _, _, _, _ => none
      | _ => none
    else none

/-- Decode the body of a JSON string literal after the opening quote,
returning the decoded characters and the rest after the closing quote. -/
def decodeStringBody : Nat → Str → Option (Str × Str)
  | 0, _ => none
  | _ + 1, [] => none
  | fuel + 1, c :: rest =>
    if c = chQuote then some ([], rest)
    else if c = chBackslash then
      match decodeEscape rest with
      | none => none
      | some (d, rest2) =>
        match decodeStringBody fuel rest2 with
        | none => none
        | some (body, r) => some (d :: body, r)
    else
      match decodeStringBody fuel rest with
      | none => none
      | some (body, r) => some (c :: body, r)

/-- json.Unmarshal of a value into a Go string: succeeds exactly when the
raw text is a JSON string literal, yielding the unquoted value. -/
def unquoteString (s : Str) : Option Str :=
  match s with
  | c :: rest =>
    if c = chQuote then
      match decodeStringBody (rest.length + 1) rest with
      | some (body, r) => if r.isEmpty then some body else none
      | none => none
    else none
  | [] => none

/-! ## Candidate model (candidate.go) -/

/-- Candidate: identity key plus raw JSON data, exactly as in the Go
struct (Key string; Data json.RawMessage). -/
structure Candidate where
  key : Str
  data : Str
  deriving DecidableEq, Repr

/-- ParseCandidates: unmarshal the input as a JSON array of raw elements;
for each element the key is the compacted element text, except that a
JSON string element uses its unquoted value.  json.Compact removes
whitespace only — it does not reorder object fields. -/
def ParseCandidates (jsonData : Str) : Option (List Candidate) :=
  match splitTopArray jsonData with
  | none => none
  | some raw =>
    some (raw.map (fun item =>
      let compacted := compactText item
      let key :=
        match unquoteString item with
        | some str => str
        | none => compacted
      { key := key, data := item }))

/-- IsArray: the first byte of the data is an opening bracket. -/
def Candidate.IsArray (c : Candidate) : Bool :=
  match c.data with
  | d :: _ => d = chLBrack
  | [] => false

/-- IsMap: the first byte of the data is an opening brace. -/
def Candidate.IsMap (c : Candidate) : Bool :=
  match c.data with
  | d :: _ => d = chLBrace
  | [] => false

/-- IsString: the first byte of the data is a double quote. -/
def Candidate.IsString (c : Candidate) : Bool :=
  match c.data with
  | d :: _ => d = chQuote
  | [] => false

/-- rawToString: a JSON string unquotes to its value, anything else keeps
its JSON representation. -/
def rawToString (raw : Str) : Str :=
  match unquoteString raw with
  | some str => str
  | none => raw

/-- Split the fields of a top-level JSON object into decoded key and raw
value text, mirroring json.Unmarshal into map[string]json.RawMessage. -/
def splitObjFields (fuel : Nat) (s : Str) (acc : List (Str × Str)) :
    Option (List (Str × Str)) :=
  match fuel with
  | 0 => none
  | fuel + 1 =>
    match skipWs s with
    | [] => none
    | c :: rest =>
      if c = chQuote then
        match decodeStringBody (rest.length + 1) rest with
        | none => none
        | some (name, afterKey) =>
          match skipWs afterKey with
          | d :: afterColon =>
            if d = chColon then
              let v1 := skipWs afterColon
              match scanValue (v1.length + 1) v1 with
              | none => none
              | some rest2 =>
                let valText := consumedText v1 rest2
                match skipWs rest2 with
                | e :: rest3 =>
                  if e = chRBrace then some (acc ++ [(name, valText)])
                  else if e = chComma then splitObjFields fuel rest3 (acc ++ [(name, valText)])
                  else none
                | [] => none
            else none
          | [] => none
      else none

/-- Parse a top-level JSON object into its field list (source order). -/
def splitTopObj (s : Str) : Option (List (Str × Str)) :=
  match skipWs s with
  | [] => none
  | c :: rest =>
    if c = chLBrace then
      match skipWs rest with
      | d :: _ => if d = chRBrace then some [] else splitObjFields (s.length + 1) rest []
      | [] => none
    else none

/-- Go map semantics: on duplicate keys the last occurrence wins. -/
def lookupLast (fields : List (Str × Str)) (name : Str) : Option Str :=
  (fields.filter (fun f => f.1 = name)).getLast?.map (fun f => f.2)

/-- GetIndex: the i-th element of an array candidate, string-unwrapped. -/
def Candidate.GetIndex (c : Candidate) (i : Nat) : Option Str :=
  if !c.IsArray then none
  else
    match splitTopArray c.data with
    | none => none
    | some arr =>
      match arr.get? i with
      | none => none
      | some elem => some (rawToString elem)

/-- GetSlice: elements from the start index to the end, re-marshalled as
a compact JSON array.  An out-of-range start yields the literal text [].
json.Marshal of a RawMessage compacts it (HTML escaping of the three
characters &, <, > is not modelled; no input here contains them). -/
def Candidate.GetSlice (c : Candidate) (start : Nat) : Option Str :=
  if !c.IsArray then none
  else
    match splitTopArray c.data with
    | none => none
    | some arr =>
      if arr.length ≤ start then some (chLBrack :: [chRBrack])
      else
        let pieces := (arr.drop start).map compactText
        some (chLBrack :: (List.intercalate [chComma] pieces ++ [chRBrack]))

/-- GetKey: the named field of a map candidate, string-unwrapped. -/
def Candidate.GetKey (c : Candidate) (name : Str) : Option Str :=
  if !c.IsMap then none
  else
    match splitTopObj c.data with
    | none => none
    | some fields =>
      match lookupLast fields name with
      | none => none
      | some val => some (rawToString val)

/-- String(): unquote string candidates, unwrap single-element arrays,
otherwise return the raw JSON text. -/
def Candidate.asString (c : Candidate) : Str :=
  let arrayOrRaw :=
    if c.IsArray then
      match splitTopArray c.data with
      | some [single] => rawToString single
      | _ => c.data
    else c.data
  if c.IsString then
    match unquoteString c.data with
    | some str => str
    | none => arrayOrRaw
  else arrayOrRaw

/-! ## MD5 (crypto/md5, used by FilterByHash)

A direct embedding of the MD5 digest over byte lists, with 32-bit words
as naturals reduced modulo 2^32. -/

/-- UTF-8 encoding of one character (Go strings are UTF-8 bytes). -/
def utf8Encode (c : Char) : List Nat :=
  let n := c.toNat
  if n < 128 then [n]
  else if n < 2048 then [192 + n / 64, 128 + n % 64]
  else if n < 65536 then [224 + n / 4096, 128 + n / 64 % 64, 128 + n % 64]
  else [240 + n / 262144, 128 + n / 4096 % 64, 128 + n / 64 % 64, 128 + n % 64]

/-- The bytes of a string. -/
def strBytes (s : Str) : List Nat :=
  (s.map utf8Encode).flatten

/-- Reduce to a 32-bit word. -/
def w32 (n : Nat) : Nat := n % 4294967296

/-- 32-bit left rotation (x must be a 32-bit word). -/
def rotl32 (x c : Nat) : Nat := w32 (x * 2 ^ c) ||| x / 2 ^ (32 - c)

/-- 32-bit bitwise complement. -/
def mnot (x : Nat) : Nat := Nat.xor 4294967295 x

/-- The 64 MD5 sine-derived constants. -/
def md5K : List Nat :=
  [0xd76aa478, 0xe8c7b756, 0x242070db, 0xc1bdceee,
   0xf57c0faf, 0x4787c62a, 0xa8304613, 0xfd469501,
   0x698098d8, 0x8b44f7af, 0xffff5bb1, 0x895cd7be,
   0x6b901122, 0xfd987193, 0xa679438e, 0x49b40821,
   0xf61e2562, 0xc040b340, 0x265e5a51, 0xe9b6c7aa,
   0xd62f105d, 0x02441453, 0xd8a1e681, 0xe7d3fbc8,
   0x21e1cde6, 0xc33707d6, 0xf4d50d87, 0x455a14ed,
   0xa9e3e905, 0xfcefa3f8, 0x676f02d9, 0x8d2a4c8a,
   0xfffa3942, 0x8771f681, 0x6d9d6122, 0xfde5380c,
   0xa4beea44, 0x4bdecfa9, 0xf6bb4b60, 0xbebfbc70,
   0x289b7ec6, 0xeaa127fa, 0xd4ef3085, 0x04881d05,
   0xd9d4d039, 0xe6db99e5, 0x1fa27cf8, 0xc4ac5665,
   0xf4292244, 0x432aff97, 0xab9423a7, 0xfc93a039,
   0x655b59c3, 0x8f0ccc92, 0xffeff47d, 0x85845dd1,
   0x6fa87e4f, 0xfe2ce6e0, 0xa3014314, 0x4e0811a1,
   0xf7537e82, 0xbd3af235, 0x2ad7d2bb, 0xeb86d391]

/-- The 64 per-round rotation amounts. -/
def md5S : List Nat :=
  [7, 12, 17, 22, 7, 12, 17, 22, 7, 12, 17, 22, 7, 12, 17, 22,
   5, 9, 14, 20, 5, 9, 14, 20, 5, 9, 14, 20, 5, 9, 14, 20,
   4, 11, 16, 23, 4, 11, 16, 23, 4, 11, 16, 23, 4, 11, 16, 23,
   6, 10, 15, 21, 6, 10, 15, 21, 6, 10, 15, 21, 6, 10, 15, 21]

/-- Round function selection. -/
def md5F (i b c d : Nat) : Nat :=
  if i < 16 then (b &&& c) ||| (mnot b &&& d)
  else if i < 32 then (d &&& b) ||| (mnot d &&& c)
  else if i < 48 then Nat.xor (Nat.xor b c) d
  else Nat.xor c (b ||| mnot d)

/-- Message word index per round. -/
def md5G (i : Nat) : Nat :=
  if i < 16 then i
  else if i < 32 then (5 * i + 1) % 16
  else if i < 48 then (3 * i + 5) % 16
  else 7 * i % 16

/-- Little-endian 32-bit word from up to four bytes. -/
def leWord (bs : List Nat) : Nat :=
  bs.getD 0 0 + bs.getD 1 0 * 256 + bs.getD 2 0 * 65536 + bs.getD 3 0 * 16777216

/-- The sixteen words of one 64-byte chunk. -/
def chunkWords (chunk : List Nat) : List Nat :=
  (List.range 16).map (fun j => leWord (chunk.drop (4 * j)))

/-- One MD5 compression of a chunk into the running state [a,b,c,d]. -/
def md5Chunk (h : List Nat) (ws : List Nat) : List Nat :=
  let step := fun (st : List Nat) (i : Nat) =>
    match st with
    | [a, b, c, d] =>
      let f := w32 (md5F i b c d + a + md5K.getD i 0 + ws.getD (md5G i) 0)
      [d, w32 (b + rotl32 f (md5S.getD i 0)), b, c]
    | other => other
  match h, (List.range 64).foldl step h with
  | [a0, b0, c0, d0], [a, b, c, d] =>
    [w32 (a0 + a), w32 (b0 + b), w32 (c0 + c), w32 (d0 + d)]
  | other, _ => other

/-- MD5 padding: 0x80, zeros to 56 mod 64, then the 64-bit little-endian
bit length. -/
def md5Pad (msg : List Nat) : List Nat :=
  let len := msg.length
  let zeros := (119 - len % 64) % 64
  let bitLen := len * 8 % 18446744073709551616
  msg ++ [128] ++ List.replicate zeros 0 ++
    (List.range 8).map (fun i => bitLen / 256 ^ i % 256)

/-- Fold over successive 64-byte chunks. -/
def md5Chunks : Nat → List Nat → List Nat → List Nat
  | _, [], h => h
  | 0, _, h => h
  | fuel + 1, bytes, h =>
    md5Chunks fuel (bytes.drop 64) (md5Chunk h (chunkWords (bytes.take 64)))

/-- The 16-byte MD5 digest of a byte message. -/
def md5Bytes (msg : List Nat) : List Nat :=
  let padded := md5Pad msg
  let h := md5Chunks padded.length padded
    [0x67452301, 0xefcdab89, 0x98badcfe, 0x10325476]
  (h.map (fun w => (List.range 4).map (fun i => w / 256 ^ i % 256))).flatten

/-- FilterByHash computes hash := md5.Sum(key), forms a big integer from
the big-endian digest bytes and tests its lowest bit — that is the parity
of the last digest byte. -/
def md5KeyIsEven (key : Str) : Bool :=
  (md5Bytes (strBytes key)).getLast?.getD 1 % 2 = 0

/-- Hash partition selector. -/
inductive HashFilter where
  | none | evens | odds
  deriving DecidableEq, Repr

/-- FilterByHash filters candidates by MD5 hash parity. -/
def FilterByHash (candidates : List Candidate) (filter : HashFilter) : List Candidate :=
  match filter with
  | HashFilter.none => candidates
  | _ =>
    candidates.filter (fun c =>
      let isEven := md5KeyIsEven c.key
      (filter = HashFilter.evens && isEven) || (filter = HashFilter.odds && !isEven))

/-- SelectCandidate returns the first candidate whose key is not in the
ignored list. -/
def SelectCandidate (candidates : List Candidate) (ignored : List Str) :
    Option Candidate :=
  candidates.find? (fun c => !ignored.contains c.key)

/-! ## JSON values and the streaming protocol reader (executor.go,
RunClaudeCommand stream goroutine) -/

/-- Parsed JSON values.  Numbers keep their literal text; object fields
keep source order (Go maps collapse duplicates with the last occurrence
winning, which the lookups below reproduce). -/
inductive Json where
  | jstr : Str → Json
  | jnum : Str → Json
  | jbool : Bool → Json
  | jnull : Json
  | jarr : List Json → Json
  | jobj : List (Str × Json) → Json

/-- Literal helper: the character list of a Lean string literal. -/
def strLit (s : String) : Str := s.toList

mutual

/-- Recursive-descent JSON parser; returns the value and the rest. -/
def parseJson : Nat → Str → Option (Json × Str)
  | 0, _ => none
  | fuel + 1, s =>
    match skipWs s with
    | [] => none
    | c :: rest =>
      if c = chQuote then
        match decodeStringBody (rest.length + 1) rest with
        | some (body, r) => some (Json.jstr body, r)
        | none => none
      else if c = chLBrack then
        match skipWs rest with
        | d :: r2 =>
          if d = chRBrack then some (Json.jarr [], r2)
          else parseArrItems fuel rest []
        | [] => none
      else if c = chLBrace then
        match skipWs rest with
        | d :: r2 =>
          if d = chRBrace then some (Json.jobj [], r2)
          else parseObjItems fuel rest []
        | [] => none
      else if strLit "true" |>.isPrefixOf (c :: rest) then
        some (Json.jbool true, (c :: rest).drop 4)
      else if strLit "false" |>.isPrefixOf (c :: rest) then
        some (Json.jbool false, (c :: rest).drop 5)
      else if strLit "null" |>.isPrefixOf (c :: rest) then
        some (Json.jnull, (c :: rest).drop 4)
      else
        let numChars := (c :: rest).takeWhile (fun ch => !isPrimEnd ch)
        if numChars.isEmpty then none
        else some (Json.jnum numChars, (c :: rest).drop numChars.length)

/-- Items of a JSON array after the opening bracket. -/
def parseArrItems : Nat → Str → List Json → Option (Json × Str)
  | 0, _, _ => none
  | fuel + 1, s, acc =>
    match parseJson fuel s with
    | none => none
    | some (v, rest) =>
      match skipWs rest with
      | d :: r2 =>
        if d = chRBrack then some (Json.jarr (acc ++ [v]), r2)
        else if d = chComma then parseArrItems fuel r2 (acc ++ [v])
        else none
      | [] => none

/-- Fields of a JSON object after the opening brace. -/
def parseObjItems : Nat → Str → List (Str × Json) → Option (Json × Str)
  | 0, _, _ => none
  | fuel + 1, s, acc =>
    match skipWs s with
    | c :: rest =>
      if c = chQuote then
        match decodeStringBody (rest.length + 1) rest with
        | none => none
        | some (name, afterKey) =>
          match skipWs afterKey with
          | d :: afterColon =>
            if d = chColon then
              match parseJson fuel afterColon with
              | none => none
              | some (v, rest2) =>
                match skipWs rest2 with
                | e :: r3 =>
                  if e = chRBrace then some (Json.jobj (acc ++ [(name, v)]), r3)
                  else if e = chComma then parseObjItems fuel r3 (acc ++ [(name, v)])
                  else none
                | [] => none
            else none
          | [] => none
      else none
    | [] => none

end

/-- Parse a complete JSON document: one value with nothing after it. -/
def parseJsonDoc (s : Str) : Option Json :=
  match parseJson (s.length + 1) s with
  | some (v, rest) => if (skipWs rest).isEmpty then some v else none
  | none => none

/-- All values of a field name, in order. -/
def fieldAll (fields : List (Str × Json)) (name : Str) : List Json :=
  (fields.filter (fun f => f.1 = name)).map (fun f => f.2)

/-- Go map lookup after decoding: the last occurrence wins. -/
def lookupJson (fields : List (Str × Json)) (name : Str) : Option Json :=
  (fields.filter (fun f => f.1 = name)).getLast?.map (fun f => f.2)

/-- The decoded streamEvent struct: Type string, Event map. -/
structure StreamEventGo where
  type : Str
  event : List (Str × Json)

/-- json.Unmarshal of a line into streamEvent.  Fails (passthrough) when
the line is not a JSON object, or a "type" field is not a string, or an
"event" field is not an object. -/
def unmarshalStreamEvent (line : Str) : Option StreamEventGo :=
  match parseJsonDoc line with
  | some (Json.jobj fields) =>
    let typeVals := fieldAll fields (strLit "type")
    let eventVals := fieldAll fields (strLit "event")
    if typeVals.all (fun v => match v with | Json.jstr _ => true | _ => false) &&
       eventVals.all (fun v => match v with | Json.jobj _ => true | _ => false) then
      some
        { type := match typeVals.getLast? with
            | some (Json.jstr t) => t
            | _ => []
          event := match eventVals.getLast? with
            | some (Json.jobj ev) => ev
            | _ => [] }
    else none
  | _ => none

/-- Decode the delta of a content_block_delta event, mirroring the
marshal/unmarshal round trip into contentBlockDelta: absent delta gives
zero values, a non-object delta or non-string type/text is a decode
error (none). -/
def deltaOf (event : List (Str × Json)) : Option (Str × Str) :=
  match lookupJson event (strLit "delta") with
  | none => some ([], [])
  | some (Json.jobj df) =>
    let tv := match lookupJson df (strLit "type") with
      | none => some ([] : Str)
      | some (Json.jstr t) => some t
      | some _ => none
    let xv := match lookupJson df (strLit "text") with
      | none => some ([] : Str)
      | some (Json.jstr x) => some x
      | some _ => none
    match tv, xv with
    | some t, some x => some (t, x)
    | _, _ => none
  | some _ => none

/-- Accumulator of the stream-reading goroutine: the accumulated output
buffer, the concatenation of the streaming-callback invocations, and the
per-message has-content flag. -/
structure StreamAcc where
  fullOutput : Str
  emitted : Str
  hasContent : Bool
  deriving DecidableEq, Repr

/-- Initial accumulator. -/
def initAcc : StreamAcc := { fullOutput := [], emitted := [], hasContent := false }

/-- Process one stdout line exactly as the stream goroutine does. -/
def processLine (st : StreamAcc) (line : Str) : StreamAcc :=
  match unmarshalStreamEvent line with
  | none =>
    -- not valid JSON (for this struct): write as-is to the log and append
    -- the raw line plus a newline to the accumulated output
    { st with fullOutput := st.fullOutput ++ line ++ [chNewline] }
  | some se =>
    if se.type = strLit "stream_event" then
      let st1 :=
        match lookupJson se.event (strLit "type") with
        | some (Json.jstr t) =>
          if t = strLit "content_block_delta" then
            match deltaOf se.event with
            | some (dt, text) =>
              if dt = strLit "text_delta" && !text.isEmpty then
                { st with
                  fullOutput := st.fullOutput ++ text
                  emitted := st.emitted ++ text
                  hasContent := true }
              else st
            | none => st
          else st
        | _ => st
      match lookupJson se.event (strLit "type") with
      | some (Json.jstr t) =>
        if t = strLit "message_stop" then
          if st1.hasContent then
            { fullOutput := st1.fullOutput ++ [chNewline]
              emitted := st1.emitted ++ [chNewline]
              hasContent := false }
          else { st1 with hasContent := false }
        else st1
      | _ => st1
    else st
    -- the "result" case only confirms completion and appends nothing

/-- Fold the goroutine over all stdout lines. -/
def processStream (lines : List Str) : StreamAcc :=
  lines.foldl processLine initAcc

/-- The accumulated output RunClaudeCommand hands back: everything the
stream reader gathered, with captured stderr appended at the end. -/
def runClaudeOutput (lines : List Str) (stderr : Str) : Str :=
  (processStream lines).fullOutput ++ stderr

/-- Everything sent to the streaming callback: the per-event stream plus
the single final newline after the stream ends. -/
def runClaudeEmitted (lines : List Str) : Str :=
  (processStream lines).emitted ++ [chNewline]

/-! ## RunClaudeCommand completion (executor.go)

The race between the timeout timer and process completion is resolved by
an oracle flag; what the function returns in each case is embedded
directly from the select statement. -/

/-- Errors RunClaudeCommand can report. -/
inductive ClaudeErr where
  | timeout : ClaudeErr  -- timeoutError
  | scan : ClaudeErr     -- scanner error from the reader
  | wait : ClaudeErr     -- non-nil cmd.Wait error
  deriving DecidableEq, Repr

/-- Oracle for one agent invocation: the stdout lines the reader drains,
the captured stderr, whether the timeout fired first, and whether the
reader or the process reported an error. -/
structure ClaudeEnv where
  lines : List Str
  stderr : Str
  timedOut : Bool
  scanErr : Bool
  waitErr : Bool

/-- The (accumulated output, error) pair RunClaudeCommand returns.  On
timeout the process group is killed, the drained stream result is
awaited, and the partial output is returned with the timeout error. -/
def runClaude (env : ClaudeEnv) : Str × Option ClaudeErr :=
  let out := runClaudeOutput env.lines env.stderr
  if env.timedOut then (out, some ClaudeErr.timeout)
  else if env.scanErr then (out, some ClaudeErr.scan)
  else if env.waitErr then (out, some ClaudeErr.wait)
  else (out, none)

/-! ## Prompt template interpolation (executor.go, InterpolatePrompt)

The four regexes are embedded as explicit left-to-right scanners.  Each
pass finds non-overlapping leftmost matches and substitutes without
rescanning its own replacement text, as ReplaceAllStringFunc does;
subsequent passes run over the rewritten string, as in the source. -/

/-- ASCII decimal digit. -/
def isDigitCh (c : Char) : Bool := 48 ≤ c.toNat && c.toNat ≤ 57

/-- Regex word character (for the word boundary in bare $INPUT). -/
def isWordCh (c : Char) : Bool :=
  (48 ≤ c.toNat && c.toNat ≤ 57) || (65 ≤ c.toNat && c.toNat ≤ 90) ||
  (97 ≤ c.toNat && c.toNat ≤ 122) || c.toNat = 95

/-- The literal text of the $INPUT variable. -/
def dollarInput : Str := strLit "$INPUT"

/-- Decimal digits to a natural number (strconv.Atoi on the digit run;
int overflow of absurdly long runs is not modelled). -/
def digitsToNat (ds : Str) : Nat :=
  ds.foldl (fun n c => n * 10 + (c.toNat - 48)) 0

/-- Try to match the map-key pattern at the head of the input.  Yields
the captured key and the rest after the match. -/
def matchMapKey (s : Str) : Option (Str × Str) :=
  let pre := dollarInput ++ [chLBrack, chQuote]
  if pre.isPrefixOf s then
    let t := s.drop pre.length
    let k := t.takeWhile (fun c => c ≠ chQuote)
    if k.isEmpty then none
    else
      match t.drop k.length with
      | c :: d :: rest =>
        if c = chQuote && d = chRBrack then some (k, rest) else none
      | _ => none
  else none

/-- Try to match the slice pattern at the head of the input. -/
def matchSlice (s : Str) : Option (Str × Str) :=
  let pre := dollarInput ++ [chLBrack]
  if pre.isPrefixOf s then
    let t := s.drop pre.length
    let ds := t.takeWhile isDigitCh
    if ds.isEmpty then none
    else
      match t.drop ds.length with
      | c :: d :: rest =>
        if c = chColon && d = chRBrack then some (ds, rest) else none
      | _ => none
  else none

/-- Try to match the index pattern at the head of the input. -/
def matchIndex (s : Str) : Option (Str × Str) :=
  let pre := dollarInput ++ [chLBrack]
  if pre.isPrefixOf s then
    let t := s.drop pre.length
    let ds := t.takeWhile isDigitCh
    if ds.isEmpty then none
    else
      match t.drop ds.length with
      | c :: rest => if c = chRBrack then some (ds, rest) else none
      | _ => none
  else none

/-- Try to match bare $INPUT followed by a word boundary. -/
def matchBare (s : Str) : Option Str :=
  if dollarInput.isPrefixOf s then
    let rest := s.drop dollarInput.length
    match rest with
    | [] => some []
    | c :: _ => if isWordCh c then none else some rest
  else none

/-- Pass 1: replace each map-key match via GetKey, absent keys with the
empty string. -/
def mapKeyPass : Nat → Str → Candidate → Str
  | 0, s, _ => s
  | fuel + 1, s, cand =>
    match s with
    | [] => []
    | c :: rest =>
      match matchMapKey s with
      | some (k, r) =>
        (match cand.GetKey k with
          | some val => val
          | none => []) ++ mapKeyPass fuel r cand
      | none => c :: mapKeyPass fuel rest cand

/-- Pass 2: replace each slice match via GetSlice, failures with []. -/
def slicePass : Nat → Str → Candidate → Str
  | 0, s, _ => s
  | fuel + 1, s, cand =>
    match s with
    | [] => []
    | c :: rest =>
      match matchSlice s with
      | some (ds, r) =>
        (match cand.GetSlice (digitsToNat ds) with
          | some val => val
          | none => [chLBrack, chRBrack]) ++ slicePass fuel r cand
      | none => c :: slicePass fuel rest cand

/-- Pass 3: replace each index match via GetIndex, failures with the
empty string. -/
def indexPass : Nat → Str → Candidate → Str
  | 0, s, _ => s
  | fuel + 1, s, cand =>
    match s with
    | [] => []
    | c :: rest =>
      match matchIndex s with
      | some (ds, r) =>
        (match cand.GetIndex (digitsToNat ds) with
          | some val => val
          | none => []) ++ indexPass fuel r cand
      | none => c :: indexPass fuel rest cand

/-- Pass 4: replace each bare $INPUT with the whole-value string. -/
def barePass : Nat → Str → Candidate → Str
  | 0, s, _ => s
  | fuel + 1, s, cand =>
    match s with
    | [] => []
    | c :: rest =>
      match matchBare s with
      | some r => cand.asString ++ barePass fuel r cand
      | none => c :: barePass fuel rest cand

/-- strings.ReplaceAll with a literal pattern. -/
def replaceAllLit : Nat → Str → Str → Str → Str
  | 0, s, _, _ => s
  | fuel + 1, s, pat, repl =>
    match s with
    | [] => []
    | c :: rest =>
      if !pat.isEmpty && pat.isPrefixOf s then
        repl ++ replaceAllLit fuel (s.drop pat.length) pat repl
      else c :: replaceAllLit fuel rest pat repl

/-- InterpolatePrompt: $TASK_ID, then the four $INPUT patterns in order
map-key, slice, index, bare. -/
def InterpolatePrompt (template : Str) (candidate : Candidate) (taskID : Nat) : Str :=
  let r0 := replaceAllLit template.length template (strLit "$TASK_ID") (toString taskID).toList
  let r1 := mapKeyPass r0.length r0 candidate
  let r2 := slicePass r1.length r1 candidate
  let r3 := indexPass r2.length r2 candidate
  barePass r3.length r3 candidate

/-! ## Persistent ignore list (candidate.go, IgnoredList.Add) -/

/-- The in-memory entries plus the lines of the backing file. -/
structure IgnoredState where
  entries : List Str
  file : List Str
  deriving DecidableEq, Repr

/-- Failures of the append path. -/
inductive AddErr where
  | openFailed | writeFailed
  deriving DecidableEq, Repr

/-- Oracle for one Add call: whether the file open and the write
succeed. -/
structure AddEnv where
  openOk : Bool
  writeOk : Bool

/-- Add: no-op when the key is present; otherwise append the key as one
line to the backing file, and only after the write succeeded record it in
the in-memory set.  Open and write failures propagate and leave the
in-memory entries untouched. -/
def addIgnored (st : IgnoredState) (env : AddEnv) (key : Str) :
    IgnoredState × Option AddErr :=
  if st.entries.contains key then (st, none)
  else if !env.openOk then (st, some AddErr.openFailed)
  else if !env.writeOk then (st, some AddErr.writeFailed)
  else ({ entries := st.entries ++ [key], file := st.file ++ [key] }, none)

/-! ## Iteration state machine (runner.go)

runIteration and its outcome handlers are embedded as functions over an
oracle environment that supplies the result of every external call
(candidate discovery, agent invocation, verify/reset/commit commands,
git status, ignore-list write).  Each external command execution is also
recorded in an event trace so temporal ordering can be stated.
Presentation-only effects (colored printing, progress timers, audit-log
writes) are not modelled; the logged outcome is returned as data. -/

/-- Audit-trail outcome classification. -/
inductive Outcome where
  | fixed | fixedReverted | notFixed | bestEffort | buildFailed
  deriving DecidableEq, Repr

/-- Error kinds runIteration can return, as the outer loop classifies
them by dynamic type: fatalError, rateLimitError, and everything else. -/
inductive RunErrKind where
  | fatal | rateLimit | generic
  deriving DecidableEq, Repr

/-- External command executions, in the order they happen. -/
inductive Ev where
  | candSource   -- candidate discovery (initial run)
  | claude       -- the agent invocation
  | verify       -- the verify command
  | recheck      -- candidate discovery re-run after the agent
  | reset        -- the reset command
  | gitStatus    -- HasUncommittedChanges
  | successCmd   -- the success (commit) command
  | addIgnore    -- appending to the ignore list
  deriving DecidableEq, Repr

/-- The rate-limit phrase searched for in the agent output. -/
def rateLimitPhrase : Str :=
  strLit "You" ++ [Char.ofNat 39] ++ strLit "ve hit your limit"

/-- containsKey from runner.go. -/
def containsKey (candidates : List Candidate) (key : Str) : Bool :=
  candidates.any (fun c => c.key = key)

/-- Oracle for one iteration. -/
structure IterEnv where
  candSrc1 : Option Str       -- stdout of the first discovery run (none = failed)
  hashFilter : HashFilter
  promptOk : Bool             -- template load succeeded (vacuously true for inline prompts)
  dryRun : Bool
  claudeLines : List Str      -- agent stdout lines drained by the reader
  claudeStderr : Str
  claudeErr : Option ClaudeErr
  verifyCmdPresent : Bool     -- VerifyCommand configured
  resetCmdPresent : Bool      -- ResetCommand configured
  acceptBestEffort : Bool
  verifyMain : Bool           -- result of the verify right after the agent
  candSrc2 : Option Str       -- stdout of the discovery re-run
  handlerVerify : Bool        -- result of the verify inside a handler
  recoverVerify : Bool        -- result of the verify after the recovery reset
  hasChangesRes : Option Bool -- HasUncommittedChanges (none = error)
  successCmdRes : Option Bool -- success command (none = execution error)
  resetOk : Bool              -- reset command result
  resetVerify : Bool          -- verify inside runResetAndVerify
  addEnv : AddEnv             -- ignore-list append oracle

/-- Result of one handler or iteration. -/
structure IterRes where
  trace : List Ev
  done : Bool
  err : Option RunErrKind
  outcome : Option Outcome
  deriving DecidableEq, Repr

/-- runVerify: vacuously true when no verify command is configured,
otherwise one verify execution with the given result. -/
def runVerifyM (present : Bool) (res : Bool) : Bool × List Ev :=
  if !present then (true, []) else (res, [Ev.verify])

/-- runReset: vacuously true when no reset command is configured. -/
def runResetM (env : IterEnv) : Bool × List Ev :=
  if !env.resetCmdPresent then (true, []) else (env.resetOk, [Ev.reset])

/-- runResetAndVerify: reset, then verify (when configured). -/
def runResetAndVerifyM (env : IterEnv) : Bool × List Ev :=
  let (ok, t1) := runResetM env
  if !ok then (false, t1)
  else if !env.verifyCmdPresent then (true, t1)
  else (env.resetVerify, t1 ++ [Ev.verify])

/-- The trailing ignore-list append shared by the handlers; the logged
outcome is kept even when the append errors (it was logged first). -/
def addAndFinish (env : IterEnv) (st : IgnoredState) (key : Str)
    (trace : List Ev) (o : Outcome) : IterRes × IgnoredState :=
  let (st2, e) := addIgnored st env.addEnv key
  match e with
  | some _ =>
    ({ trace := trace ++ [Ev.addIgnore], done := false
       err := some RunErrKind.generic, outcome := some o }, st2)
  | none =>
    ({ trace := trace ++ [Ev.addIgnore], done := false
       err := none, outcome := some o }, st2)

/-- handleSuccess: the candidate disappeared.  Verify unless already
verified, recover by reset on failure (FixedButReverted), otherwise
commit any changes and log Fixed without touching the ignore list. -/
def handleSuccess (env : IterEnv) (st : IgnoredState) (key : Str)
    (buildVerified : Bool) : IterRes × IgnoredState :=
  let (vok, t1) := if buildVerified then (true, []) else runVerifyM env.verifyCmdPresent env.handlerVerify
  if !buildVerified && !vok then
    let (rok, t2) := runResetM env
    if !rok then
      ({ trace := t1 ++ t2, done := false, err := some RunErrKind.fatal, outcome := none }, st)
    else
      let (v2, t3) := runVerifyM env.verifyCmdPresent env.recoverVerify
      if !v2 then
        ({ trace := t1 ++ t2 ++ t3, done := false, err := some RunErrKind.fatal, outcome := none }, st)
      else
        addAndFinish env st key (t1 ++ t2 ++ t3) Outcome.fixedReverted
  else
    match env.hasChangesRes with
    | none =>
      ({ trace := t1 ++ [Ev.gitStatus], done := false
         err := some RunErrKind.generic, outcome := none }, st)
    | some true =>
      match env.successCmdRes with
      | none =>
        ({ trace := t1 ++ [Ev.gitStatus, Ev.successCmd], done := false
           err := some RunErrKind.generic, outcome := none }, st)
      | some false =>
        ({ trace := t1 ++ [Ev.gitStatus, Ev.successCmd], done := false
           err := some RunErrKind.fatal, outcome := none }, st)
      | some true =>
        ({ trace := t1 ++ [Ev.gitStatus, Ev.successCmd], done := false
           err := none, outcome := some Outcome.fixed }, st)
    | some false =>
      ({ trace := t1 ++ [Ev.gitStatus], done := false
         err := none, outcome := some Outcome.fixed }, st)

/-- handleFailure: the candidate is still present or the build failed. -/
def handleFailure (env : IterEnv) (st : IgnoredState) (key : Str) :
    IterRes × IgnoredState :=
  if env.acceptBestEffort then
    let (vok, t1) := runVerifyM env.verifyCmdPresent env.handlerVerify
    if vok then
      match env.hasChangesRes with
      | none =>
        ({ trace := t1 ++ [Ev.gitStatus], done := false
           err := some RunErrKind.generic, outcome := none }, st)
      | some true =>
        match env.successCmdRes with
        | none =>
          ({ trace := t1 ++ [Ev.gitStatus, Ev.successCmd], done := false
             err := some RunErrKind.generic, outcome := none }, st)
        | some false =>
          ({ trace := t1 ++ [Ev.gitStatus, Ev.successCmd], done := false
             err := some RunErrKind.fatal, outcome := none }, st)
        | some true =>
          addAndFinish env st key (t1 ++ [Ev.gitStatus, Ev.successCmd]) Outcome.bestEffort
      | some false =>
        addAndFinish env st key (t1 ++ [Ev.gitStatus]) Outcome.notFixed
    else
      let (rok, t2) := runResetAndVerifyM env
      if !rok then
        ({ trace := t1 ++ t2, done := false, err := some RunErrKind.fatal, outcome := none }, st)
      else
        addAndFinish env st key (t1 ++ t2) Outcome.buildFailed
  else
    let (rok, t2) := runResetAndVerifyM env
    if !rok then
      ({ trace := t2, done := false, err := some RunErrKind.fatal, outcome := none }, st)
    else
      addAndFinish env st key t2 Outcome.notFixed

/-- handleTimeout: the agent hit the per-candidate deadline; same policy
as handleFailure (the source duplicates the structure with different
audit-detail wording). -/
def handleTimeout (env : IterEnv) (st : IgnoredState) (key : Str) :
    IterRes × IgnoredState :=
  if env.acceptBestEffort then
    let (vok, t1) := runVerifyM env.verifyCmdPresent env.handlerVerify
    if vok then
      match env.hasChangesRes with
      | none =>
        ({ trace := t1 ++ [Ev.gitStatus], done := false
           err := some RunErrKind.generic, outcome := none }, st)
      | some true =>
        match env.successCmdRes with
        | none =>
          ({ trace := t1 ++ [Ev.gitStatus, Ev.successCmd], done := false
             err := some RunErrKind.generic, outcome := none }, st)
        | some false =>
          ({ trace := t1 ++ [Ev.gitStatus, Ev.successCmd], done := false
             err := some RunErrKind.fatal, outcome := none }, st)
        | some true =>
          addAndFinish env st key (t1 ++ [Ev.gitStatus, Ev.successCmd]) Outcome.bestEffort
      | some false =>
        addAndFinish env st key (t1 ++ [Ev.gitStatus]) Outcome.notFixed
    else
      let (rok, t2) := runResetAndVerifyM env
      if !rok then
        ({ trace := t1 ++ t2, done := false, err := some RunErrKind.fatal, outcome := none }, st)
      else
        addAndFinish env st key (t1 ++ t2) Outcome.buildFailed
  else
    let (rok, t2) := runResetAndVerifyM env
    if !rok then
      ({ trace := t2, done := false, err := some RunErrKind.fatal, outcome := none }, st)
    else
      addAndFinish env st key t2 Outcome.notFixed

/-- One iteration of the runner, from candidate discovery to outcome. -/
def runIteration (env : IterEnv) (st : IgnoredState) : IterRes × IgnoredState :=
  match env.candSrc1 with
  | none =>
    ({ trace := [Ev.candSource], done := false
       err := some RunErrKind.generic, outcome := none }, st)
  | some output =>
    match ParseCandidates output with
    | none =>
      ({ trace := [Ev.candSource], done := false
         err := some RunErrKind.generic, outcome := none }, st)
    | some parsed =>
      let cands := FilterByHash parsed env.hashFilter
      match SelectCandidate cands st.entries with
      | none =>
        ({ trace := [Ev.candSource], done := true, err := none, outcome := none }, st)
      | some candidate =>
        if !env.promptOk then
          ({ trace := [Ev.candSource], done := false
             err := some RunErrKind.fatal, outcome := none }, st)
        else if env.dryRun then
          ({ trace := [Ev.candSource], done := true, err := none, outcome := none }, st)
        else
          let claudeOutput := runClaudeOutput env.claudeLines env.claudeStderr
          let t0 := [Ev.candSource, Ev.claude]
          if strContains claudeOutput rateLimitPhrase then
            ({ trace := t0, done := false
               err := some RunErrKind.rateLimit, outcome := none }, st)
          else
            match env.claudeErr with
            | some ClaudeErr.timeout =>
              let (hr, st2) := handleTimeout env st candidate.key
              ({ hr with trace := t0 ++ hr.trace }, st2)
            | some _ =>
              -- agent errored: clean up before surfacing the error
              let (rok, t2) := runResetAndVerifyM env
              if !rok then
                ({ trace := t0 ++ t2, done := false
                   err := some RunErrKind.fatal, outcome := none }, st)
              else
                ({ trace := t0 ++ t2, done := false
                   err := some RunErrKind.generic, outcome := none }, st)
            | none =>
              let vr := runVerifyM env.verifyCmdPresent env.verifyMain
              let vok := vr.1
              let tv := vr.2
              if !vok then
                let (hr, st2) := handleFailure env st candidate.key
                ({ hr with trace := t0 ++ tv ++ hr.trace }, st2)
              else
                match env.candSrc2 with
                | none =>
                  ({ trace := t0 ++ tv ++ [Ev.recheck], done := false
                     err := some RunErrKind.generic, outcome := none }, st)
                | some out2 =>
                  match ParseCandidates out2 with
                  | none =>
                    ({ trace := t0 ++ tv ++ [Ev.recheck], done := false
                       err := some RunErrKind.generic, outcome := none }, st)
                  | some parsed2 =>
                    let newCands := FilterByHash parsed2 env.hashFilter
                    let candidateFixed := !containsKey newCands candidate.key
                    if candidateFixed then
                      let (hr, st2) := handleSuccess env st candidate.key true
                      ({ hr with trace := t0 ++ tv ++ [Ev.recheck] ++ hr.trace }, st2)
                    else
                      let (hr, st2) := handleFailure env st candidate.key
                      ({ hr with trace := t0 ++ tv ++ [Ev.recheck] ++ hr.trace }, st2)

/-- The outer loop step for an iteration error (Run): fatal stops,
rate limit sleeps the fixed cooldown and resets the backoff level, any
other error sleeps the exponential backoff and increments the level. -/
structure LoopStep where
  stop : Bool
  sleep : Nat
  level : Nat
  deriving DecidableEq, Repr

/-- Error classification of the outer loop in Run. -/
def handleRunError (e : RunErrKind) (backoffLevel : Nat) : LoopStep :=
  match e with
  | RunErrKind.fatal => { stop := true, sleep := 0, level := backoffLevel }
  | RunErrKind.rateLimit => { stop := false, sleep := rateLimitBackoff, level := 0 }
  | RunErrKind.generic =>
    { stop := false, sleep := calculateBackoff backoffLevel, level := backoffLevel + 1 }

/-! ## Theorems for the claims -/

/-- C8: for every non-negative level, calculateBackoff(level) equals
min(5 minutes × 2^level, 1 hour); in particular levels 0..3 give 5m,
10m, 20m, 40m and every level from 4 on gives exactly 1 hour. -/
theorem C8_calculateBackoff_eq_min (level : Nat) :
    calculateBackoff level = min (baseBackoff * 2 ^ level) maxBackoff := by
  have hbase : baseBackoff ≤ maxBackoff := by norm_num [baseBackoff, maxBackoff]
  simpa [calculateBackoff] using backoffLoop_eq_min level baseBackoff hbase

/-- The evens partition is a plain filter on the even-hash predicate. -/
theorem filterByHash_evens (cs : List Candidate) :
    FilterByHash cs HashFilter.evens = cs.filter (fun c => md5KeyIsEven c.key) := by
  show cs.filter _ = cs.filter _
  apply List.filter_congr
  intro c _
  simp

/-- The odds partition is a plain filter on the odd-hash predicate. -/
theorem filterByHash_odds (cs : List Candidate) :
    FilterByHash cs HashFilter.odds = cs.filter (fun c => !md5KeyIsEven c.key) := by
  show cs.filter _ = cs.filter _
  apply List.filter_congr
  intro c _
  simp

/-- C7: for every candidate list, the Evens and Odds partitions of
FilterByHash are determined by the parity of the MD5 hash of the key,
are disjoint (membership in one is membership in the original list with
the matching parity), and together reconstruct the original list exactly
(their concatenation is a permutation of it). -/
theorem C7_filterByHash_partition (candidates : List Candidate) :
    (∀ c, c ∈ FilterByHash candidates HashFilter.evens ↔
        c ∈ candidates ∧ md5KeyIsEven c.key = true) ∧
    (∀ c, c ∈ FilterByHash candidates HashFilter.odds ↔
        c ∈ candidates ∧ md5KeyIsEven c.key = false) ∧
    List.Perm
      (FilterByHash candidates HashFilter.evens ++ FilterByHash candidates HashFilter.odds)
      candidates := by
  refine ⟨?_, ?_, ?_⟩
  · intro c
    rw [filterByHash_evens]
    simp [List.mem_filter]
  · intro c
    rw [filterByHash_odds]
    simp [List.mem_filter]
  · rw [filterByHash_evens, filterByHash_odds]
    exact List.filter_append_perm _ _

/-- C6: IgnoredList.Add is a no-op returning no error when the key is
already present; otherwise it appends the key as one line to the backing
file and records it in memory, and a failure to open or write leaves the
in-memory entries (and the file) unchanged while propagating an error. -/
theorem C6_add_idempotent_and_durable (st : IgnoredState) (env : AddEnv) (key : Str) :
    (st.entries.contains key = true → addIgnored st env key = (st, none)) ∧
    (st.entries.contains key = false → env.openOk = false →
      addIgnored st env key = (st, some AddErr.openFailed)) ∧
    (st.entries.contains key = false → env.openOk = true → env.writeOk = false →
      addIgnored st env key = (st, some AddErr.writeFailed)) ∧
    (st.entries.contains key = false → env.openOk = true → env.writeOk = true →
      addIgnored st env key =
        ({ entries := st.entries ++ [key], file := st.file ++ [key] }, none)) := by
  refine ⟨?_, ?_, ?_, ?_⟩ <;> intro h1 <;> simp [addIgnored, h1] <;> intros <;> simp_all

/-- Witness for C6 at concrete inputs. -/
theorem C6_add_witness :
    addIgnored ⟨[strLit "a"], [strLit "a"]⟩ ⟨true, true⟩ (strLit "a")
      = (⟨[strLit "a"], [strLit "a"]⟩, none) ∧
    addIgnored ⟨[strLit "a"], [strLit "a"]⟩ ⟨false, true⟩ (strLit "b")
      = (⟨[strLit "a"], [strLit "a"]⟩, some AddErr.openFailed) ∧
    addIgnored ⟨[strLit "a"], [strLit "a"]⟩ ⟨true, true⟩ (strLit "b")
      = (⟨[strLit "a", strLit "b"], [strLit "a", strLit "b"]⟩, none) := by
  refine ⟨?_, ?_, ?_⟩
  · exact (C6_add_idempotent_and_durable _ _ _).1 (by decide)
  · exact (C6_add_idempotent_and_durable _ _ _).2.1 (by decide) rfl
  · exact (C6_add_idempotent_and_durable _ _ _).2.2.2 (by decide) rfl rfl

/-- C2 fails on the code: ParseCandidates compacts element JSON but does
not sort object keys, so the differently-ordered inputs named by the
claim produce different keys.  This contradicts the testsuite
(TestDeterministicMapKeys expects both orders to yield the sorted key). -/
theorem C2_parse_does_not_sort_keys :
    (ParseCandidates (strLit "[\x7b\"file\":\"test.go\",\"line\":10\x7d]")).map
        (List.map Candidate.key)
      = some [strLit "\x7b\"file\":\"test.go\",\"line\":10\x7d"] ∧
    (ParseCandidates (strLit "[\x7b\"line\":10,\"file\":\"test.go\"\x7d]")).map
        (List.map Candidate.key)
      = some [strLit "\x7b\"line\":10,\"file\":\"test.go\"\x7d"] ∧
    strLit "\x7b\"line\":10,\"file\":\"test.go\"\x7d"
      ≠ strLit "\x7b\"file\":\"test.go\",\"line\":10\x7d" := by
  refine ⟨by decide, by decide, by decide⟩

/-- C4: when the timeout fires during the agent invocation,
RunClaudeCommand returns the accumulated output the stream reader
drained (stderr appended) together with the timeout error. -/
theorem C4_timeout_returns_accumulated (env : ClaudeEnv) (h : env.timedOut = true) :
    runClaude env = (runClaudeOutput env.lines env.stderr, some ClaudeErr.timeout) := by
  simp [runClaude, h]

/-- A delta line of the streaming protocol carrying the given text. -/
def deltaLine (t : Str) : Str :=
  strLit "\x7b\"type\":\"stream_event\",\"event\":\x7b\"type\":\"content_block_delta\",\"index\":0,\"delta\":\x7b\"type\":\"text_delta\",\"text\":\"" ++
    t ++ strLit "\"\x7d\x7d\x7d"

/-- A message_stop line of the streaming protocol. -/
def stopLine : Str :=
  strLit "\x7b\"type\":\"stream_event\",\"event\":\x7b\"type\":\"message_stop\"\x7d\x7d"

/-- Witness for C4: with the text "partial" already streamed when the
deadline fires, the call returns ("partial", timeout), not an empty
result. -/
theorem C4_timeout_witness :
    runClaude { lines := [deltaLine (strLit "partial")], stderr := []
                timedOut := true, scanErr := false, waitErr := false }
      = (strLit "partial", some ClaudeErr.timeout) := by
  rw [C4_timeout_returns_accumulated _ rfl]
  decide

/-- The first candidate parsed from a JSON array text (test helper,
mirroring makeCandidate in the testsuite). -/
def candOf (s : Str) : Candidate :=
  match ParseCandidates s with
  | some (c :: _) => c
  | _ => { key := [], data := [] }

/-- C9: substitution applies map-key, then slice, then index, then bare
$INPUT, so $INPUT[0] is replaced by the element at index 0 and never
caught by the bare rule; an out-of-range index or missing map key
substitutes the empty string and an out-of-range slice substitutes []. -/
theorem C9_interpolation_order :
    InterpolatePrompt (strLit "First: $INPUT[0]")
        (candOf (strLit "[[\"first\", \"second\", \"third\"]]")) 12345
      = strLit "First: first" ∧
    InterpolatePrompt (strLit "Missing: $INPUT[5]")
        (candOf (strLit "[[\"only\"]]")) 12345
      = strLit "Missing: " ∧
    InterpolatePrompt (strLit "Missing: $INPUT[\"nope\"]")
        (candOf (strLit "[\x7b\"file\": \"test.go\"\x7d]")) 12345
      = strLit "Missing: " ∧
    InterpolatePrompt (strLit "Rest: $INPUT[5:]")
        (candOf (strLit "[[\"a\"]]")) 12345
      = strLit "Rest: []" ∧
    InterpolatePrompt (strLit "File: $INPUT[\"file\"]")
        (candOf (strLit "[\x7b\"file\": \"test.go\"\x7d]")) 12345
      = strLit "File: test.go" ∧
    InterpolatePrompt (strLit "$INPUTX $INPUT")
        (candOf (strLit "[\"test\"]")) 12345
      = strLit "$INPUTX test" ∧
    InterpolatePrompt (strLit "All: $INPUT, First: $INPUT[0], Rest: $INPUT[1:]")
        (candOf (strLit "[[\"a\", \"b\", \"c\"]]")) 12345
      = strLit "All: [\"a\", \"b\", \"c\"], First: a, Rest: [\"b\",\"c\"]" := by
  refine ⟨by decide, by decide, by decide, by decide, by decide, by decide, by decide⟩

/-- C5: the streaming reader appends a newline on message_stop exactly
when the current message produced non-empty delta text: the concrete
sequence delta "Hello ", delta "World", message_stop accumulates exactly
"Hello World\n" (both in the output buffer and through the callback), a
message_stop with no preceding delta emits nothing, and in general a
message_stop line appends a newline if and only if the has-content flag
is set (a non-empty delta sets it). -/
theorem C5_message_stop_newline :
    (processStream [deltaLine (strLit "Hello "), deltaLine (strLit "World"), stopLine]).fullOutput
      = strLit "Hello World\n" ∧
    (processStream [deltaLine (strLit "Hello "), deltaLine (strLit "World"), stopLine]).emitted
      = strLit "Hello World\n" ∧
    (processStream [stopLine]).fullOutput = [] ∧
    (processStream [stopLine]).emitted = [] ∧
    (∀ st : StreamAcc, processLine st stopLine =
      { fullOutput := st.fullOutput ++ (if st.hasContent then [chNewline] else [])
        emitted := st.emitted ++ (if st.hasContent then [chNewline] else [])
        hasContent := false }) ∧
    (∀ st : StreamAcc, (processLine st (deltaLine (strLit "Hello "))).hasContent = true) := by
  have hstop : unmarshalStreamEvent stopLine =
      some ⟨strLit "stream_event", [(strLit "type", Json.jstr (strLit "message_stop"))]⟩ := rfl
  have hl : lookupJson [(strLit "type", Json.jstr (strLit "message_stop"))] (strLit "type")
      = some (Json.jstr (strLit "message_stop")) := rfl
  refine ⟨by decide, by decide, by decide, by decide, ?_, ?_⟩
  · intro st
    obtain ⟨fo, em, hc⟩ := st
    cases hc <;>
      simp [processLine, hstop, hl, (by decide : strLit "stream_event" = strLit "stream_event"),
        (by decide : ¬ strLit "message_stop" = strLit "content_block_delta")]
  · intro st
    obtain ⟨fo, em, hc⟩ := st
    have hdelta : unmarshalStreamEvent (deltaLine (strLit "Hello ")) =
        some ⟨strLit "stream_event",
          [(strLit "type", Json.jstr (strLit "content_block_delta")),
           (strLit "index", Json.jnum (strLit "0")),
           (strLit "delta", Json.jobj
             [(strLit "type", Json.jstr (strLit "text_delta")),
              (strLit "text", Json.jstr (strLit "Hello "))])]⟩ := rfl
    have hl2 : lookupJson
        [(strLit "type", Json.jstr (strLit "content_block_delta")),
         (strLit "index", Json.jnum (strLit "0")),
         (strLit "delta", Json.jobj
           [(strLit "type", Json.jstr (strLit "text_delta")),
            (strLit "text", Json.jstr (strLit "Hello "))])] (strLit "type")
        = some (Json.jstr (strLit "content_block_delta")) := rfl
    have hd2 : deltaOf
        [(strLit "type", Json.jstr (strLit "content_block_delta")),
         (strLit "index", Json.jnum (strLit "0")),
         (strLit "delta", Json.jobj
           [(strLit "type", Json.jstr (strLit "text_delta")),
            (strLit "text", Json.jstr (strLit "Hello "))])]
        = some (strLit "text_delta", strLit "Hello ") := rfl
    simp [processLine, hdelta, hl2, hd2,
      (by decide : ¬ strLit "content_block_delta" = strLit "message_stop"),
      (by decide : ¬ strLit "Hello " = ([] : Str))]

/-- When the trailing ignore-list append returns without error it has
logged the given outcome and the key is now in the ignore set. -/
theorem addAndFinish_spec (env : IterEnv) (st : IgnoredState) (key : Str)
    (tr : List Ev) (o : Outcome) (hkey : st.entries.contains key = false)
    (herr : (addAndFinish env st key tr o).1.err = none) :
    (addAndFinish env st key tr o).1.outcome = some o ∧
    (addAndFinish env st key tr o).2.entries.contains key = true := by
  have hmem : key ∉ st.entries := by simpa using hkey
  cases hop : env.addEnv.openOk <;> cases hwr : env.addEnv.writeOk <;>
    simp [addAndFinish, addIgnored, hmem, hop, hwr] at herr ⊢

/-- C3: in every handler that returns without error, the key lands in
the ignore set exactly when the logged outcome is not an unconditional
Fixed — added on NotFixed, BuildFailed, BestEffort and FixedButReverted,
not added on a clean Fixed. -/
theorem C3_ignored_iff_not_clean_fixed (env : IterEnv) (st : IgnoredState)
    (key : Str) (hkey : st.entries.contains key = false) :
    (∀ bv, (handleSuccess env st key bv).1.err = none →
      ((handleSuccess env st key bv).2.entries.contains key = true ↔
        (handleSuccess env st key bv).1.outcome ≠ some Outcome.fixed)) ∧
    ((handleFailure env st key).1.err = none →
      ((handleFailure env st key).2.entries.contains key = true ↔
        (handleFailure env st key).1.outcome ≠ some Outcome.fixed)) ∧
    ((handleTimeout env st key).1.err = none →
      ((handleTimeout env st key).2.entries.contains key = true ↔
        (handleTimeout env st key).1.outcome ≠ some Outcome.fixed)) := by
  refine ⟨?_, ?_, ?_⟩
  · intro bv
    unfold handleSuccess runVerifyM runResetM addAndFinish addIgnored
    repeat' split
    all_goals intro herr
    all_goals try split_ifs at *
    all_goals first
      | (simp_all; done)
      | (subst_eqs; simp_all)
  · unfold handleFailure runVerifyM runResetAndVerifyM runResetM addAndFinish addIgnored
    repeat' split
    all_goals intro herr
    all_goals try split_ifs at *
    all_goals first
      | (simp_all; done)
      | (subst_eqs; simp_all)
  · unfold handleTimeout runVerifyM runResetAndVerifyM runResetM addAndFinish addIgnored
    repeat' split
    all_goals intro herr
    all_goals try split_ifs at *
    all_goals first
      | (simp_all; done)
      | (subst_eqs; simp_all)

/-- A fully concrete iteration oracle for witnesses: one candidate "a",
no hash filter, clean agent run, verification passing, candidate gone on
re-check, nothing to commit. -/
def baseEnv : IterEnv :=
  { candSrc1 := some (strLit "[\"a\"]")
    hashFilter := HashFilter.none
    promptOk := true
    dryRun := false
    claudeLines := []
    claudeStderr := []
    claudeErr := none
    verifyCmdPresent := true
    resetCmdPresent := true
    acceptBestEffort := false
    verifyMain := true
    candSrc2 := some (strLit "[]")
    handlerVerify := true
    recoverVerify := true
    hasChangesRes := some false
    successCmdRes := some true
    resetOk := true
    resetVerify := true
    addEnv := ⟨true, true⟩ }

/-- The empty ignore list state. -/
def emptyIgnored : IgnoredState := ⟨[], []⟩

/-- Witness for C3 at the concrete oracle: clean Fixed leaves the key
out of the ignore set, while failure and timeout record it. -/
theorem C3_ignored_witness :
    ((handleSuccess baseEnv emptyIgnored (strLit "a") true).2.entries.contains (strLit "a") = true ↔
      (handleSuccess baseEnv emptyIgnored (strLit "a") true).1.outcome ≠ some Outcome.fixed) ∧
    ((handleFailure baseEnv emptyIgnored (strLit "a")).2.entries.contains (strLit "a") = true ↔
      (handleFailure baseEnv emptyIgnored (strLit "a")).1.outcome ≠ some Outcome.fixed) ∧
    ((handleTimeout baseEnv emptyIgnored (strLit "a")).2.entries.contains (strLit "a") = true ↔
      (handleTimeout baseEnv emptyIgnored (strLit "a")).1.outcome ≠ some Outcome.fixed) := by
  have h := C3_ignored_iff_not_clean_fixed baseEnv emptyIgnored (strLit "a") (by decide)
  exact ⟨h.1 true (by decide), h.2.1 (by decide), h.2.2 (by decide)⟩

/-- Scanner deciding that no candidate re-derivation happens before the
first verify execution. -/
def verifyBeforeRecheck : List Ev → Bool
  | [] => true
  | e :: rest =>
    if e = Ev.recheck then false
    else if e = Ev.verify then true
    else verifyBeforeRecheck rest

/-- Soundness of the scanner: a true scan means every re-derivation in
the trace is preceded by an earlier verify execution. -/
theorem verifyBeforeRecheck_sound (l : List Ev) (h : verifyBeforeRecheck l = true) :
    ∀ i : Nat, l[i]? = some Ev.recheck → ∃ j : Nat, j < i ∧ l[j]? = some Ev.verify := by
  induction l with
  | nil => intro i hi; simp at hi
  | cons e rest ih =>
    intro i hi
    by_cases he : e = Ev.recheck
    · subst he; simp [verifyBeforeRecheck] at h
    · by_cases hvv : e = Ev.verify
      · subst hvv
        cases i with
        | zero => simp at hi
        | succ n => exact ⟨(0 : Nat), Nat.succ_pos n, by simp⟩
      · have h2 : verifyBeforeRecheck rest = true := by
          simpa [verifyBeforeRecheck, he, hvv] using h
        cases i with
        | zero => simp at hi; exact absurd hi he
        | succ n =>
          obtain ⟨j, hj, hjv⟩ := ih h2 n (by simpa using hi)
          exact ⟨j + 1, by omega, by simpa using hjv⟩

/-- In every iteration whose agent invocation returned without error
(and with a verify command configured), the scanner accepts the trace:
candidate re-derivation never happens before build verification. -/
theorem runIteration_verify_first (env : IterEnv) (st : IgnoredState)
    (hc : env.claudeErr = none) (hv : env.verifyCmdPresent = true) :
    verifyBeforeRecheck (runIteration env st).1.trace = true := by
  unfold runIteration
  repeat' split
  all_goals try simp_all [runVerifyM, runResetAndVerifyM, runResetM, verifyBeforeRecheck]
  all_goals repeat' split
  all_goals simp_all [runVerifyM, runResetAndVerifyM, runResetM, verifyBeforeRecheck]

/-- C1: in every iteration where the agent invocation returns without
error, the verify command runs strictly before the candidate-discovery
re-run — any re-derivation event in the trace has an earlier verify
event. -/
theorem C1_verify_before_recheck (env : IterEnv) (st : IgnoredState)
    (hc : env.claudeErr = none) (hv : env.verifyCmdPresent = true) :
    ∀ i : Nat, (runIteration env st).1.trace[i]? = some Ev.recheck →
      ∃ j : Nat, j < i ∧ (runIteration env st).1.trace[j]? = some Ev.verify :=
  verifyBeforeRecheck_sound _ (runIteration_verify_first env st hc hv)

/-- Witness for C1: in the concrete successful iteration the trace is
[candSource, claude, verify, recheck, gitStatus]; position 3 is the
re-derivation and an earlier verify exists. -/
theorem C1_verify_witness :
    ∃ j : Nat, j < 3 ∧ (runIteration baseEnv emptyIgnored).1.trace[j]? = some Ev.verify :=
  C1_verify_before_recheck baseEnv emptyIgnored rfl rfl 3 (by decide)

/-- C10: whenever the accumulated agent output (stream plus captured
stderr) contains the rate-limit phrase, the iteration returns the
rate-limit error — regardless of whether the invocation also timed out
or errored — the ignore set is untouched, and the outer loop sleeps the
fixed one-hour cooldown and resets the backoff level to zero. -/
theorem C10_rate_limit_precedence (env : IterEnv) (st : IgnoredState)
    (output : Str) (parsed : List Candidate) (cand : Candidate)
    (h1 : env.candSrc1 = some output)
    (h2 : ParseCandidates output = some parsed)
    (h3 : SelectCandidate (FilterByHash parsed env.hashFilter) st.entries = some cand)
    (h4 : env.promptOk = true) (h5 : env.dryRun = false)
    (h6 : strContains (runClaudeOutput env.claudeLines env.claudeStderr) rateLimitPhrase = true) :
    (runIteration env st).1.err = some RunErrKind.rateLimit ∧
    (runIteration env st).2 = st ∧
    ∀ lvl, handleRunError RunErrKind.rateLimit lvl =
      { stop := false, sleep := rateLimitBackoff, level := 0 } := by
  refine ⟨?_, ?_, fun lvl => rfl⟩ <;>
    · unfold runIteration
      simp [h1, h2, h3, h4, h5, h6]

/-- Concrete oracle for the C10 witness: the stderr carries the
rate-limit phrase and the same invocation also timed out. -/
def rateLimitEnv : IterEnv :=
  { baseEnv with claudeStderr := rateLimitPhrase, claudeErr := some ClaudeErr.timeout }

/-- Witness for C10: rate-limit detection wins over the timeout. -/
theorem C10_rate_limit_witness :
    (runIteration rateLimitEnv emptyIgnored).1.err = some RunErrKind.rateLimit ∧
    (runIteration rateLimitEnv emptyIgnored).2 = emptyIgnored ∧
    ∀ lvl, handleRunError RunErrKind.rateLimit lvl =
      { stop := false, sleep := rateLimitBackoff, level := 0 } :=
  C10_rate_limit_precedence rateLimitEnv emptyIgnored _ _ _ rfl rfl rfl rfl rfl (by decide)

end TaskRunner
